import Mathlib

/-!
Shallow embedding of the hilicurl HTTP latency prober (hilicurl.go, with the
repository's earlier iterations part_000 .. part_003 where a property concerns
them), together with theorems settling the specification claims about it.

Times are modelled as integers (nanoseconds, like Go `time.Time` /
`time.Duration`); machine floating point appears only in the final
`timeoutRate` computation and is modelled over `ℚ` with an explicit marker for
non-finite results (`float64(0)/float64(0)` is NaN).
-/

/-- Go `*http.Response` as far as the program inspects it: the program only
ever reads `res.StatusCode`/`res.Status` (for the log line) and compares the
pointer against `nil`, so a response is its status code; `Option Response`
models the possibly-nil pointer. -/
structure Response where
  statusCode : Nat
  deriving DecidableEq

/-- The `Record` struct of hilicurl.go (lines 147-151):
`Request *http.Request`, `Response *http.Response`, `ElapsedTime time.Duration`.
The request pointer is never inspected beyond being stored, so it is modelled
as `Option Unit`; the Go zero value `Record{}` has nil pointers and a zero
duration. -/
structure Record where
  request : Option Unit
  response : Option Response
  elapsedTime : Int
  deriving DecidableEq

/-- Result of `ioutil.ReadAll(res.Body)` for one probe: either the body is
fully read (with its length), or reading fails with an error. -/
inductive BodyOutcome where
  | ok (length : Nat)
  | readErr (msg : String)
  deriving DecidableEq

/-- Result of `http.DefaultClient.Do(req)` for one probe: either `Do` returns
an error (DNS/connect/TLS failure, or the context deadline expiring before the
response headers arrive), or it returns a response with the given status code,
whose body then behaves as described. -/
inductive DoOutcome where
  | err (msg : String)
  | ok (statusCode : Nat) (body : BodyOutcome)
  deriving DecidableEq

/-- Everything the environment decides for one execution of `request`
(hilicurl.go lines 97-130): how the HTTP call behaves, the time `t3` at which
the `httptrace.ClientTrace.GotConn` callback fires (a usable connection, new
or reused, was obtained), and the time `t7` taken by `time.Now()` right after
`ReadAll` returns the full body. -/
structure HttpEnv where
  doOutcome : DoOutcome
  tConn : Int
  tBodyDone : Int
  deriving DecidableEq

/-- The three return paths of `request` in hilicurl.go: the early return after
`Do` fails (line 113), the early return after `ReadAll` fails (line 119), and
the normal return (line 129). -/
inductive ReqPath where
  | doFailed
  | bodyReadFailed
  | succeeded
  deriving DecidableEq

/-- The `request` function of hilicurl.go (lines 97-130), paired with the
return path it took.  Mirrors the source: `rec := Record{}`; `rec.Request`
is assigned the constructed request; `rec.Response = res` is assigned the
result of `Do` (nil on error) before the error check; on `Do` error it
returns `rec` at once; on `ReadAll` error it returns `rec` (response kept,
elapsed still the zero duration); otherwise `elapsed := t7.Sub(t3)` is stored
and `rec` returned. -/
def requestP (env : HttpEnv) : Record × ReqPath :=
  match env.doOutcome with
  | DoOutcome.err _ =>
      ({ request := some (), response := none, elapsedTime := 0 },
       ReqPath.doFailed)
  | DoOutcome.ok status (BodyOutcome.readErr _) =>
      ({ request := some (), response := some { statusCode := status }, elapsedTime := 0 },
       ReqPath.bodyReadFailed)
  | DoOutcome.ok status (BodyOutcome.ok _) =>
      ({ request := some (), response := some { statusCode := status },
         elapsedTime := env.tBodyDone - env.tConn },
       ReqPath.succeeded)

/-- The `Record` returned by `request` (hilicurl.go lines 97-130). -/
def request (env : HttpEnv) : Record :=
  (requestP env).1

/-- Finite-`float64` division: `float64(a)/float64(b)` yields a finite value
(here kept exact over `ℚ`) when `b ≠ 0`, and a non-finite value (NaN when
`a = 0`, ±Inf otherwise) when `b = 0`, modelled as `none`. -/
def fdiv (a b : ℚ) : Option ℚ :=
  if b = 0 then none else some (a / b)

/-- The values computed and printed by `printStatistics` (hilicurl.go lines
132-145): `nReq := len(records)`; `nRes` counts records with a non-nil
`Response`; `nTimeout := nReq - nRes`;
`timeoutRate := float64(nTimeout) / float64(nReq) * 100`.  `timeoutRate` is
`none` exactly when the float computation is non-finite (NaN for an empty
collection). -/
structure Stats where
  nReq : Nat
  nRes : Nat
  nTimeout : Int
  timeoutRate : Option ℚ
  deriving DecidableEq

/-- The `printStatistics` function of hilicurl.go (lines 132-145), returning
the statistics it prints. -/
def printStatistics (records : List Record) : Stats :=
  let nReq := records.length
  let nRes := records.countP (fun r => r.response.isSome)
  let nTimeout : Int := (nReq : Int) - (nRes : Int)
  { nReq := nReq
    nRes := nRes
    nTimeout := nTimeout
    timeoutRate := (fdiv (nTimeout : ℚ) (nReq : ℚ)).map (fun q => q * 100) }

/-! ## Scheduler trace semantics (`runRequests`, hilicurl.go lines 75-95)

`runRequests` is a loop over a `select`: when the run context is done it
prints the statistics over the current `records` and returns; otherwise it
launches one probe goroutine (which performs `request` and appends the
resulting record to the shared slice) and sleeps for the interval.  We model
an execution as a trace of atomic events interleaving the scheduler loop, the
signal handler's `cancel()`, and the completing probe goroutines.  Each
goroutine's append is taken as one atomic event here — an idealisation that
amounts to assuming the unsynchronized appends happen to be serialized, which
the source does not guarantee: the finer racy read-modify-write behaviour of
the append, under which a completed probe's record can be lost, is modelled
separately below. -/

/-- State of a run of `runRequests`: the shared `records` slice
(`make([]Record, 0, 10)` starts it empty), how many probe goroutines have been
launched, which of them are still in flight (by launch index), which have
completed (instrumentation recording the completion order; it does not affect
the computation), whether `cancel()` has been called on the run context, and
the statistics printed on return (absent while the loop is still running). -/
structure SchedState where
  records : List Record
  dispatched : Nat
  pending : List Nat
  completedIds : List Nat
  cancelled : Bool
  reported : Option Stats
  deriving DecidableEq

/-- The initial state of `runRequests`: `records := make([]Record, 0, 10)` is
empty, nothing launched, context not cancelled, nothing reported. -/
def initState : SchedState :=
  { records := [], dispatched := 0, pending := [], completedIds := []
    cancelled := false, reported := none }

/-- Atomic events of a run: `tick` is one iteration of the loop taking the
`default` branch (the context was not done: launch one probe goroutine, then
sleep); `cancel` is the interrupt handler cancelling the run context;
`complete id` is probe goroutine `id` finishing and appending its record;
`report` is an iteration taking the `ctx.Done()` branch (print statistics and
return). -/
inductive SchedEvent where
  | tick
  | cancel
  | complete (id : Nat)
  | report
  deriving DecidableEq

/-- One atomic step of the run.  `none` means the event cannot occur in this
state: the loop has already returned (`reported` set), `tick` cannot fire once
the context is done (the `select` then takes the `ctx.Done()` case), `cancel`
fires only once, `complete id` requires goroutine `id` to be in flight, and
`report` requires the context to be done.  The probe goroutine for launch
index `id` computes `request (envs id)`. -/
def schedStep (envs : Nat → HttpEnv) (s : SchedState) : SchedEvent → Option SchedState
  | SchedEvent.tick =>
      if s.reported = none ∧ s.cancelled = false then
        some { s with dispatched := s.dispatched + 1, pending := s.dispatched :: s.pending }
      else none
  | SchedEvent.cancel =>
      if s.reported = none ∧ s.cancelled = false then
        some { s with cancelled := true }
      else none
  | SchedEvent.complete id =>
      if s.reported = none ∧ id ∈ s.pending then
        some { s with records := s.records ++ [request (envs id)]
                      pending := s.pending.erase id
                      completedIds := s.completedIds ++ [id] }
      else none
  | SchedEvent.report =>
      if s.reported = none ∧ s.cancelled = true then
        some { s with reported := some (printStatistics s.records) }
      else none

/-- Run a trace of events from a given state. -/
def schedRunFrom (envs : Nat → HttpEnv) (s : SchedState) : List SchedEvent → Option SchedState
  | [] => some s
  | e :: tr =>
      match schedStep envs s e with
      | none => none
      | some s' => schedRunFrom envs s' tr

/-- Run a trace of events from the initial state of `runRequests`. -/
def schedRun (envs : Nat → HttpEnv) (tr : List SchedEvent) : Option SchedState :=
  schedRunFrom envs initState tr

/-! ## The unsynchronized append, at race granularity (hilicurl.go line 90)

`records = append(records, res)` executed by each probe goroutine is an
unsynchronized read-modify-write of the shared slice variable: the goroutine
reads the current slice, extends it, and writes the new slice back.  Two
goroutines interleaving at this granularity can both read the same slice and
one write then overwrites the other. -/

/-- Progress of one probe goroutine through its append: it has not yet read
the shared slice, it has read it (holding the snapshot it will extend), or it
has written back and finished. -/
inductive TaskPhase where
  | idle
  | readDone (snapshot : List Record)
  | finished
  deriving DecidableEq

/-- Shared slice variable plus the phase of each concurrently completing
probe goroutine. -/
structure RaceState where
  shared : List Record
  phases : List TaskPhase
  deriving DecidableEq

/-- The two halves of goroutine `i`'s `records = append(records, res)`:
reading the shared slice, and writing back the extended slice. -/
inductive RaceEvent where
  | readShared (i : Nat)
  | writeShared (i : Nat)
  deriving DecidableEq

/-- One atomic step of the racy append model: goroutine `i` either takes its
snapshot of the shared slice, or writes back its snapshot extended with its
own record `results i`. -/
def raceStep (results : Nat → Record) (s : RaceState) : RaceEvent → Option RaceState
  | RaceEvent.readShared i =>
      match s.phases[i]? with
      | some TaskPhase.idle =>
          some { shared := s.shared, phases := s.phases.set i (TaskPhase.readDone s.shared) }
      | _ => none
  | RaceEvent.writeShared i =>
      match s.phases[i]? with
      | some (TaskPhase.readDone snap) =>
          some { shared := snap ++ [results i], phases := s.phases.set i TaskPhase.finished }
      | _ => none

/-- Run a trace of read/write events for `n` concurrently completing probe
goroutines, starting from an empty shared slice. -/
def raceRun (results : Nat → Record) (n : Nat) : List RaceEvent → Option RaceState :=
  let start : RaceState := { shared := [], phases := List.replicate n TaskPhase.idle }
  let rec go (s : RaceState) : List RaceEvent → Option RaceState
    | [] => some s
    | e :: tr =>
        match raceStep results s e with
        | none => none
        | some s' => go s' tr
  go start

/-! ## The earlier iteration part_002 (and part_000) of `request`

In part_002 (lines 77-86) the probe is executed synchronously in the main
loop: `res, err := http.Get(url); if err != nil { log.Printf(...) }` — with no
`return` — and then `res.Status` is evaluated.  When `err != nil`, `res` is
nil and `res.Status` dereferences a nil pointer: a runtime panic, which
propagates to `main`'s deferred `recover`, printing the error and exiting with
code 1.  (part_000 lines 97-110 has the same missing `return` with `request`
called from the goroutine that only receives from the unbuffered channel after
`request` returns, so on error the `c <- nil` send blocks forever and the
failed probe's goroutine hangs without ever delivering an outcome.)  The later
iterations part_001/part_003/hilicurl.go add the missing early return. -/

/-- Behaviour of `http.Get(url)` for one probe in part_002. -/
inductive GetOutcome where
  | err (msg : String)
  | ok (statusCode : Nat)
  deriving DecidableEq

/-- A Go runtime panic raised by the modelled code. -/
inductive GoPanic where
  | nilPointerDereference
  deriving DecidableEq

/-- The `request` function of part_002 (lines 77-86): on `http.Get` success it
logs the status line and returns; on error it logs the error, does not
return, and then evaluates `res.Status` with `res = nil`, panicking. -/
def requestPart002 (o : GetOutcome) : Except GoPanic Nat :=
  match o with
  | GetOutcome.err _ => Except.error GoPanic.nilPointerDereference
  | GetOutcome.ok status => Except.ok status

/-- The main loop of part_002 (lines 51-60) run over the per-tick outcomes of
`http.Get` until the operator interrupts: each iteration calls `request`
synchronously; a panic inside it propagates and ends the loop (recovered in
`main`, which exits with code 1).  Returns how many probes ran, or the panic
that aborted the run. -/
def runLoopPart002 : List GetOutcome → Except GoPanic Nat
  | [] => Except.ok 0
  | o :: rest =>
      match requestPart002 o with
      | Except.error p => Except.error p
      | Except.ok _ => (runLoopPart002 rest).map (fun n => n + 1)

/-! ## Deadline model for one probe (`context.WithTimeout` + `net/http`)

`runRequests` wraps each probe in `context.WithTimeout(ctx, *timeout)` where
`ctx` is the run's cancellable context, so the probe's context is done at the
earlier of `dispatch time + timeout` and the run's cancellation time.  The Go
HTTP client then behaves as follows for a server whose connection is obtained
at `connAt`, whose response headers arrive at `headersAt`, and whose body
would be fully read at `bodyDoneAt`: if the deadline falls at or before
`headersAt`, `Do` itself returns a deadline error; if it falls after the
headers but at or before `bodyDoneAt`, `Do` succeeds and `ReadAll` fails with
a deadline error; otherwise the probe completes normally. -/

/-- Timing and content of the server's behaviour for one probe. -/
structure NetBehavior where
  connAt : Int
  headersAt : Int
  bodyDoneAt : Int
  status : Nat
  bodyLen : Nat
  deriving DecidableEq

/-- The effective deadline of a probe dispatched at `dispatchAt` under
`context.WithTimeout(ctx, timeout)` with the run context cancelled at
`cancelAt`: whichever of the per-probe timeout and the outer cancellation
fires first. -/
def effectiveDeadline (dispatchAt timeout cancelAt : Int) : Int :=
  min (dispatchAt + timeout) cancelAt

/-- The `HttpEnv` a probe experiences given its effective deadline and the
server's behaviour (Go HTTP client + context semantics described above). -/
def probeResult (deadline : Int) (net : NetBehavior) : HttpEnv :=
  if deadline ≤ net.headersAt then
    { doOutcome := DoOutcome.err "context deadline exceeded"
      tConn := net.connAt, tBodyDone := net.bodyDoneAt }
  else if deadline ≤ net.bodyDoneAt then
    { doOutcome := DoOutcome.ok net.status (BodyOutcome.readErr "context deadline exceeded")
      tConn := net.connAt, tBodyDone := net.bodyDoneAt }
  else
    { doOutcome := DoOutcome.ok net.status (BodyOutcome.ok net.bodyLen)
      tConn := net.connAt, tBodyDone := net.bodyDoneAt }

/-! ## Argument handling of `main` (hilicurl.go lines 21-59)

After `flag.Parse`, `main` first honours the help flags (print usage, return —
exit status 0, no probes); then `if flag.NArg() != 1` it calls
`log.Panic("url argument is required")`, whose panic is recovered by the
deferred handler in `main`, which prints the error and the usage text and
calls `os.Exit(1)` — before `runRequests` is ever reached; otherwise it runs
the probes against `flag.Arg(0)`. -/

/-- How an invocation of `main` proceeds after flag parsing. -/
inductive MainResult where
  | helpShown
  | usageError (message : String)
  | ranProbes (url : String)
  deriving DecidableEq

/-- The post-`flag.Parse` control flow of `main` (hilicurl.go lines 48-58),
as a function of the parsed help flag and the positional arguments. -/
def mainArgs (help : Bool) (args : List String) : MainResult :=
  if help then MainResult.helpShown
  else if args.length ≠ 1 then MainResult.usageError "url argument is required"
  else MainResult.ranProbes (args.headD "")

/-! ## Concrete inputs used by witnesses and counterexamples -/

/-- A probe that succeeds with status 200 and a 5-byte body, connection at
time 3, body fully read at time 10. -/
def env200 : HttpEnv :=
  { doOutcome := DoOutcome.ok 200 (BodyOutcome.ok 5), tConn := 3, tBodyDone := 10 }

/-- A probe that succeeds with status 500 and a 12-byte readable body. -/
def env500 : HttpEnv :=
  { doOutcome := DoOutcome.ok 500 (BodyOutcome.ok 12), tConn := 2, tBodyDone := 9 }

/-- A probe whose response arrives (status 200) but whose body read fails. -/
def envBF : HttpEnv :=
  { doOutcome := DoOutcome.ok 200 (BodyOutcome.readErr "unexpected EOF"), tConn := 3, tBodyDone := 11 }

/-- A probe for which `Do` itself fails. -/
def envErr : HttpEnv :=
  { doOutcome := DoOutcome.err "context deadline exceeded", tConn := 0, tBodyDone := 0 }

/-- Environments for a run in which every probe behaves like `env200`. -/
def envs0 : Nat → HttpEnv := fun _ => env200

/-- A server that connects at time 3, sends headers at time 5, and whose body
would be fully read at time 20, with status 200 and a 40-byte body. -/
def netMidBody : NetBehavior :=
  { connAt := 3, headersAt := 5, bodyDoneAt := 20, status := 200, bodyLen := 40 }

/-- A server that never answers within any relevant deadline: headers would
only arrive at time 1000000. -/
def netSlow : NetBehavior :=
  { connAt := 2, headersAt := 1000000, bodyDoneAt := 1000010, status := 200, bodyLen := 7 }

/-- Outcome of probe goroutine `i` in the racy-append scenario: task 0 got a
200 response, task 1 a 204 response. -/
def raceResults : Nat → Record := fun i =>
  if i = 0 then { request := some (), response := some { statusCode := 200 }, elapsedTime := 5 }
  else { request := some (), response := some { statusCode := 204 }, elapsedTime := 6 }

/-- An interleaving of two completing probes' appends in which both
goroutines read the empty shared slice before either writes; goroutine 1
writes first, and goroutine 0's write then installs its own one-element
snapshot, losing goroutine 1's record. -/
def raceTraceLost1 : List RaceEvent :=
  [RaceEvent.readShared 0, RaceEvent.readShared 1,
   RaceEvent.writeShared 1, RaceEvent.writeShared 0]

/-- The initial outcome collection of the earlier iteration part_003 (line
82): `responses := make([]*http.Response, 10)` — a slice of length ten, all
nil, so the collection holds ten entries before any probe is dispatched. -/
def responsesPart003Init : List (Option Response) :=
  List.replicate 10 none

/-- Invariant of the scheduler trace semantics tying the shared `records`
slice to the probe goroutines: the records are exactly the outcomes of the
completed goroutines in completion order; completed and in-flight goroutine
indices are duplicate-free, disjoint, and all below the launch count; the
launch count splits into completed plus in-flight; and the reported
statistics, once set, are the statistics of the records. -/
def SchedInv (envs : Nat → HttpEnv) (s : SchedState) : Prop :=
  s.records = s.completedIds.map (fun i => request (envs i)) ∧
  s.completedIds.Nodup ∧
  s.pending.Nodup ∧
  (∀ i ∈ s.completedIds, i < s.dispatched) ∧
  (∀ i ∈ s.pending, i < s.dispatched) ∧
  (∀ i ∈ s.completedIds, i ∉ s.pending) ∧
  s.completedIds.length + s.pending.length = s.dispatched ∧
  (∀ st, s.reported = some st → st = printStatistics s.records)

/-- Trace used by the C3 witness: one probe is launched, the run is
cancelled, and the probe completes. -/
def trC3 : List SchedEvent :=
  [SchedEvent.tick, SchedEvent.cancel, SchedEvent.complete 0]

/-- The state `trC3` reaches from `initState` with every probe behaving like
`env200`. -/
def sC3 : SchedState :=
  { records := [{ request := some (), response := some { statusCode := 200 }, elapsedTime := 7 }]
    dispatched := 1, pending := [], completedIds := [0], cancelled := true
    reported := none }

/-- Trace used by the C8 witness: one probe is launched and the run is
cancelled while the probe is still in flight. -/
def trC8a : List SchedEvent :=
  [SchedEvent.tick, SchedEvent.cancel]

/-- The state `trC8a` reaches from `initState`: one probe in flight, run
cancelled, nothing reported yet. -/
def sC8a : SchedState :=
  { records := [], dispatched := 1, pending := [0], completedIds := []
    cancelled := true, reported := none }

/-! # Theorems -/

/-- Helper: `printStatistics` reports as many requests as there are records. -/
theorem printStatistics_nReq (records : List Record) :
    (printStatistics records).nReq = records.length := rfl

/-- Helper: prepending a record with a response increments the `nRes` count. -/
theorem printStatistics_nRes_cons_some (r : Record) (records : List Record)
    (h : r.response.isSome = true) :
    (printStatistics (r :: records)).nRes = (printStatistics records).nRes + 1 := by
  simp [printStatistics, List.countP_cons, h]

/-- Claim C1: the spec requires the report to compute
`timeoutRate = (requestsSent - responsesReceived) / requestsSent * 100`
exactly, lying in `[0, 100]`, with the rate defined as `0` when
`requestsSent = 0`.  The code's unguarded `float64(nTimeout) / float64(nReq)`
instead computes `0.0/0.0 = NaN` on an empty record collection: the rate is
non-finite (`none` in the model), not `0`. -/
theorem c1_zero_requests_rate_is_nan :
    (printStatistics []).nReq = 0 ∧
    (printStatistics []).timeoutRate = none ∧
    (printStatistics []).timeoutRate ≠ some 0 := by
  refine ⟨rfl, rfl, ?_⟩
  simp [printStatistics, fdiv]

/-- Claim C2, counterexample: a probe whose response arrives but whose body
read fails takes the body-read-failure return path, yet its record carries
the non-nil response and `printStatistics` counts it in `nRes` — it IS
counted in `responsesReceived`, contradicting the claim that it is not. -/
theorem c2_body_read_failure_counted :
    (requestP envBF).2 = ReqPath.bodyReadFailed ∧
    (printStatistics [request envBF]).nRes = 1 := by
  exact ⟨rfl, rfl⟩

/-- Claim C2, amended: a probe whose response arrives but whose body cannot be
fully read takes the executor's error return path (an error is logged, no
elapsed time is recorded), but the returned record keeps the received
response, and the report — which counts every record with a non-nil response —
therefore counts the outcome in `responsesReceived`. -/
theorem c2_body_read_failure_classification (env : HttpEnv) (s : Nat) (msg : String)
    (h : env.doOutcome = DoOutcome.ok s (BodyOutcome.readErr msg)) :
    (requestP env).2 = ReqPath.bodyReadFailed ∧
    (request env).response = some { statusCode := s } ∧
    (request env).elapsedTime = 0 ∧
    (∀ records : List Record,
      (printStatistics (request env :: records)).nRes = (printStatistics records).nRes + 1) := by
  refine ⟨?_, ?_, ?_, ?_⟩
  · simp [requestP, h]
  · simp [request, requestP, h]
  · simp [request, requestP, h]
  · intro records
    apply printStatistics_nRes_cons_some
    simp [request, requestP, h]

/-- Claim C2, witness for the amended theorem at the concrete body-read
failure `envBF`. -/
theorem c2_body_read_failure_classification_witness :
    envBF.doOutcome = DoOutcome.ok 200 (BodyOutcome.readErr "unexpected EOF") ∧
    ((requestP envBF).2 = ReqPath.bodyReadFailed ∧
     (request envBF).response = some { statusCode := 200 } ∧
     (request envBF).elapsedTime = 0 ∧
     (∀ records : List Record,
       (printStatistics (request envBF :: records)).nRes = (printStatistics records).nRes + 1)) :=
  ⟨rfl, c2_body_read_failure_classification envBF 200 "unexpected EOF" rfl⟩

/-- Claim C4: the claim says no single-probe failure raises a fault or
terminates the run, but in the cited iterations the error branch of `request`
is missing its early return.  In part_002, a probe for which `http.Get`
returns an error then evaluates `res.Status` on a nil `res`: a nil-pointer
panic that aborts the scheduler loop (recovered in `main`, which exits with
code 1), so the probe after the failing one never runs. -/
theorem c4_transport_error_faults_part002 :
    requestPart002 (GetOutcome.err "dial tcp: connection refused") =
      Except.error GoPanic.nilPointerDereference ∧
    runLoopPart002 [GetOutcome.ok 200, GetOutcome.err "dial tcp: connection refused",
        GetOutcome.ok 200] =
      Except.error GoPanic.nilPointerDereference := by
  exact ⟨rfl, rfl⟩

/-- Claim C5: a probe whose server returns an HTTP response with any status
code (500 included) and a fully readable body takes the success return path —
never one of the two failure paths — and its record carries that status code,
with the elapsed time recorded. -/
theorem c5_readable_body_is_success (env : HttpEnv) (s len : Nat)
    (h : env.doOutcome = DoOutcome.ok s (BodyOutcome.ok len)) :
    (requestP env).2 = ReqPath.succeeded ∧
    (request env).response = some { statusCode := s } ∧
    (request env).elapsedTime = env.tBodyDone - env.tConn := by
  refine ⟨?_, ?_, ?_⟩ <;> simp [request, requestP, h]

/-- Claim C5, witness at a server answering HTTP 500 with a readable body. -/
theorem c5_readable_body_is_success_witness :
    env500.doOutcome = DoOutcome.ok 500 (BodyOutcome.ok 12) ∧
    ((requestP env500).2 = ReqPath.succeeded ∧
     (request env500).response = some { statusCode := 500 } ∧
     (request env500).elapsedTime = env500.tBodyDone - env500.tConn) :=
  ⟨rfl, c5_readable_body_is_success env500 500 12 rfl⟩

/-- Claim C7: on the success path the recorded elapsed time is
`t7.Sub(t3)` — from the `GotConn` instant (`tConn`, a usable connection, new
or reused, obtained; not the request-construction time, which the function
never samples) to the instant after the body is fully read (`tBodyDone`) —
and on both failure paths the record keeps the zero elapsed duration. -/
theorem c7_elapsed_connection_to_body (env : HttpEnv) :
    ((requestP env).2 = ReqPath.succeeded →
      (request env).elapsedTime = env.tBodyDone - env.tConn) ∧
    ((requestP env).2 ≠ ReqPath.succeeded → (request env).elapsedTime = 0) := by
  obtain ⟨o, t3, t7⟩ := env
  cases o with
  | err msg => exact ⟨fun h => by simp [requestP] at h, fun _ => rfl⟩
  | ok status body =>
      cases body with
      | ok len => exact ⟨fun _ => rfl, fun h => absurd rfl h⟩
      | readErr msg => exact ⟨fun h => by simp [requestP] at h, fun _ => rfl⟩

/-- Claim C7, witness: the success case at `env200` and the failure case at
`envErr`. -/
theorem c7_elapsed_connection_to_body_witness :
    ((requestP env200).2 = ReqPath.succeeded ∧ (request env200).elapsedTime = 7) ∧
    ((requestP envErr).2 ≠ ReqPath.succeeded ∧ (request envErr).elapsedTime = 0) :=
  ⟨⟨rfl, (c7_elapsed_connection_to_body env200).1 rfl⟩,
   ⟨by decide, (c7_elapsed_connection_to_body envErr).2 (by decide)⟩⟩

/-- Claim C6, counterexample: a probe dispatched at time 0 with timeout 10
(run cancelled only at 1000) against `netMidBody` has its effective deadline
(10) expire after the headers (5) but before the body is fully read (20) — so
the deadline expires before the response is fully received — yet its record
carries the response, and the report counts it among the responses received
with zero timeouts: it is not classified `TimedOut`. -/
theorem c6_mid_body_deadline_not_timeout :
    effectiveDeadline 0 10 1000 ≤ netMidBody.bodyDoneAt ∧
    netMidBody.headersAt < effectiveDeadline 0 10 1000 ∧
    (request (probeResult (effectiveDeadline 0 10 1000) netMidBody)).response =
      some { statusCode := 200 } ∧
    (printStatistics [request (probeResult (effectiveDeadline 0 10 1000) netMidBody)]).nTimeout
      = 0 ∧
    (printStatistics [request (probeResult (effectiveDeadline 0 10 1000) netMidBody)]).nRes
      = 1 := by
  refine ⟨by decide, by decide, ?_, ?_, ?_⟩ <;> rfl

/-- Claim C6, amended: the effective deadline of a probe is the minimum of the
per-probe timeout and the run's cancellation instant; a probe whose deadline
expires before the response headers arrive yields a record with no response,
counted as a timeout (and never as a received response); but a probe whose
deadline expires only while the body is being read yields a record carrying
the response with no elapsed time, counted among the responses received and
not among the timeouts. -/
theorem c6_deadline_classification (dispatchAt timeout cancelAt : Int) (net : NetBehavior) :
    (effectiveDeadline dispatchAt timeout cancelAt ≤ net.headersAt →
      (request (probeResult (effectiveDeadline dispatchAt timeout cancelAt) net)).response
        = none ∧
      (printStatistics
        [request (probeResult (effectiveDeadline dispatchAt timeout cancelAt) net)]).nTimeout
        = 1 ∧
      (printStatistics
        [request (probeResult (effectiveDeadline dispatchAt timeout cancelAt) net)]).nRes
        = 0) ∧
    (net.headersAt < effectiveDeadline dispatchAt timeout cancelAt →
     effectiveDeadline dispatchAt timeout cancelAt ≤ net.bodyDoneAt →
      (request (probeResult (effectiveDeadline dispatchAt timeout cancelAt) net)).response
        = some { statusCode := net.status } ∧
      (request (probeResult (effectiveDeadline dispatchAt timeout cancelAt) net)).elapsedTime
        = 0 ∧
      (printStatistics
        [request (probeResult (effectiveDeadline dispatchAt timeout cancelAt) net)]).nTimeout
        = 0 ∧
      (printStatistics
        [request (probeResult (effectiveDeadline dispatchAt timeout cancelAt) net)]).nRes
        = 1) := by
  constructor
  · intro h
    refine ⟨?_, ?_, ?_⟩ <;>
      simp [probeResult, h, request, requestP, printStatistics,
        List.countP_cons, List.countP_nil]
  · intro h1 h2
    have h1' : ¬ effectiveDeadline dispatchAt timeout cancelAt ≤ net.headersAt :=
      not_le.mpr h1
    refine ⟨?_, ?_, ?_, ?_⟩ <;>
      simp [probeResult, h1', h2, request, requestP, printStatistics,
        List.countP_cons, List.countP_nil]

/-- Claim C6, witness for the amended theorem: the deadline-before-headers
case against the slow server, and the deadline-during-body-read case against
`netMidBody`. -/
theorem c6_deadline_classification_witness :
    (effectiveDeadline 0 20 1000 ≤ netSlow.headersAt ∧
      (request (probeResult (effectiveDeadline 0 20 1000) netSlow)).response = none ∧
      (printStatistics [request (probeResult (effectiveDeadline 0 20 1000) netSlow)]).nTimeout
        = 1 ∧
      (printStatistics [request (probeResult (effectiveDeadline 0 20 1000) netSlow)]).nRes
        = 0) ∧
    (netMidBody.headersAt < effectiveDeadline 0 10 1000 ∧
     effectiveDeadline 0 10 1000 ≤ netMidBody.bodyDoneAt ∧
      (request (probeResult (effectiveDeadline 0 10 1000) netMidBody)).response
        = some { statusCode := netMidBody.status } ∧
      (request (probeResult (effectiveDeadline 0 10 1000) netMidBody)).elapsedTime = 0 ∧
      (printStatistics
        [request (probeResult (effectiveDeadline 0 10 1000) netMidBody)]).nTimeout = 0 ∧
      (printStatistics
        [request (probeResult (effectiveDeadline 0 10 1000) netMidBody)]).nRes = 1) := by
  constructor
  · exact ⟨by decide, (c6_deadline_classification 0 20 1000 netSlow).1 (by decide)⟩
  · refine ⟨by decide, by decide, ?_⟩
    have h := (c6_deadline_classification 0 10 1000 netMidBody).2 (by decide) (by decide)
    exact ⟨h.1, h.2.1, h.2.2.1, h.2.2.2⟩

/-- Claim C9: the spec requires every one of N concurrent appends to be
reflected in the final count, but the code's `records = append(records, res)`
is an unsynchronized read-modify-write of the shared slice.  With two probe
goroutines interleaved as read-read-write-write, both goroutines finish, yet
the final slice holds a single record: goroutine 0's append is lost. -/
theorem c9_concurrent_append_lost :
    raceRun raceResults 2
        [RaceEvent.readShared 0, RaceEvent.readShared 1,
         RaceEvent.writeShared 0, RaceEvent.writeShared 1] =
      some { shared := [raceResults 1], phases := [TaskPhase.finished, TaskPhase.finished] } ∧
    (raceResults 0) ∉ [raceResults 1] ∧
    ([raceResults 1] : List Record).length = 1 := by
  refine ⟨rfl, by decide, rfl⟩

/-- Claim C10, counterexample: an invocation with two positional arguments
but the help flag set (`hilicurl -h http://a http://b`) prints the usage text
and exits with status 0 — it is not treated as a fatal usage error with exit
code 1, contradicting the claim's quantification over every invocation whose
positional-argument count differs from one. -/
theorem c10_two_args_with_help_not_fatal :
    (["http://a", "http://b"] : List String).length ≠ 1 ∧
    mainArgs true ["http://a", "http://b"] = MainResult.helpShown ∧
    MainResult.helpShown ≠ MainResult.usageError "url argument is required" := by
  exact ⟨by decide, rfl, by decide⟩

/-- Claim C10, amended: for every invocation without the help flag whose
positional-argument count differs from exactly one — including more than one
URL argument, not only a missing one — `main` panics with
"url argument is required"; the deferred recover prints the error and the
usage text and exits with code 1, and `runRequests` is never reached, so no
probe is dispatched.  (With the help flag set, usage is printed and the
process exits 0 regardless of the argument count.) -/
theorem c10_arg_count_usage_error (args : List String) (h : args.length ≠ 1) :
    mainArgs false args = MainResult.usageError "url argument is required" ∧
    (∀ url, mainArgs false args ≠ MainResult.ranProbes url) := by
  refine ⟨by simp [mainArgs, h], ?_⟩
  intro url
  simp [mainArgs, h]

/-- Claim C10, witness for the amended theorem at an invocation with two
positional arguments and no help flag. -/
theorem c10_arg_count_usage_error_witness :
    (["http://a", "http://b"] : List String).length ≠ 1 ∧
    (mainArgs false ["http://a", "http://b"]
        = MainResult.usageError "url argument is required" ∧
     (∀ url, mainArgs false ["http://a", "http://b"] ≠ MainResult.ranProbes url)) :=
  ⟨by decide, c10_arg_count_usage_error ["http://a", "http://b"] (by decide)⟩

/-- Helper: a step taken while the run context is already cancelled never
launches a new probe and keeps the context cancelled. -/
theorem schedStep_after_cancel (envs : Nat → HttpEnv) (s s' : SchedState) (e : SchedEvent)
    (hc : s.cancelled = true) (h : schedStep envs s e = some s') :
    s'.dispatched = s.dispatched ∧ s'.cancelled = true := by
  cases e with
  | tick =>
      simp only [schedStep] at h
      split at h
      · rename_i hcond
        simp [hcond.2] at hc
      · exact absurd h (by simp)
  | cancel =>
      simp only [schedStep] at h
      split at h
      · rename_i hcond
        simp [hcond.2] at hc
      · exact absurd h (by simp)
  | complete id =>
      simp only [schedStep] at h
      split at h
      · injection h with h'
        subst h'
        exact ⟨rfl, hc⟩
      · exact absurd h (by simp)
  | report =>
      simp only [schedStep] at h
      split at h
      · injection h with h'
        subst h'
        exact ⟨rfl, hc⟩
      · exact absurd h (by simp)

/-- Helper: along any continuation of a trace that has already observed
cancellation, the dispatch count never changes and the context stays
cancelled. -/
theorem schedRunFrom_after_cancel (envs : Nat → HttpEnv) (tr : List SchedEvent) :
    ∀ s s', s.cancelled = true → schedRunFrom envs s tr = some s' →
      s'.dispatched = s.dispatched ∧ s'.cancelled = true := by
  induction tr with
  | nil =>
      intro s s' hc h
      simp only [schedRunFrom] at h
      injection h with h'
      subst h'
      exact ⟨rfl, hc⟩
  | cons e tr ih =>
      intro s s' hc h
      cases hstep : schedStep envs s e with
      | none =>
          simp only [schedRunFrom, hstep] at h
          exact Option.noConfusion h
      | some s1 =>
          simp only [schedRunFrom, hstep] at h
          obtain ⟨hd, hcanc⟩ := schedStep_after_cancel envs s s1 e hc hstep
          obtain ⟨hd', hcanc'⟩ := ih s1 s' hcanc h
          exact ⟨by rw [hd', hd], hcanc'⟩

/-- Helper: running an appended trace is running the first part and then the
second from where the first ended. -/
theorem schedRunFrom_append (envs : Nat → HttpEnv) (tr1 tr2 : List SchedEvent) :
    ∀ s, schedRunFrom envs s (tr1 ++ tr2) =
      (schedRunFrom envs s tr1).bind (fun s1 => schedRunFrom envs s1 tr2) := by
  induction tr1 with
  | nil => intro s; simp [schedRunFrom]
  | cons e tr1 ih =>
      intro s
      cases hstep : schedStep envs s e with
      | none => simp only [List.cons_append, schedRunFrom, hstep, Option.none_bind]
      | some s1 =>
          simp only [List.cons_append, schedRunFrom, hstep]
          exact ih s1

/-- Helper: every step of the scheduler semantics preserves `SchedInv`. -/
theorem schedStep_preserves_inv (envs : Nat → HttpEnv) (s s' : SchedState) (e : SchedEvent)
    (hinv : SchedInv envs s) (h : schedStep envs s e = some s') : SchedInv envs s' := by
  obtain ⟨h1, h2, h3, h4, h5, h6, h7, h8⟩ := hinv
  cases e with
  | tick =>
      simp only [schedStep] at h
      split at h
      · rename_i hcond
        injection h with h'
        subst h'
        refine ⟨h1, h2, ?_, ?_, ?_, ?_, ?_, ?_⟩
        · exact List.nodup_cons.mpr ⟨fun hmem => lt_irrefl _ (h5 _ hmem), h3⟩
        · intro i hi; exact Nat.lt_succ_of_lt (h4 i hi)
        · intro i hi
          rcases List.mem_cons.mp hi with rfl | hi'
          · exact Nat.lt_succ_self _
          · exact Nat.lt_succ_of_lt (h5 i hi')
        · intro i hi hmem
          rcases List.mem_cons.mp hmem with rfl | hmem'
          · exact lt_irrefl _ (h4 _ hi)
          · exact h6 i hi hmem'
        · simp only [List.length_cons]; omega
        · intro st hst
          exact absurd hst (by simp [hcond.1])
      · exact absurd h (by simp)
  | cancel =>
      simp only [schedStep] at h
      split at h
      · injection h with h'
        subst h'
        exact ⟨h1, h2, h3, h4, h5, h6, h7, h8⟩
      · exact absurd h (by simp)
  | complete k =>
      simp only [schedStep] at h
      split at h
      · rename_i hcond
        obtain ⟨hrep, hk⟩ := hcond
        injection h with h'
        subst h'
        have hkc : k ∉ s.completedIds := fun hmem => h6 k hmem hk
        refine ⟨?_, ?_, ?_, ?_, ?_, ?_, ?_, ?_⟩
        · simp [h1, List.map_append]
        · refine List.Nodup.append h2 (List.nodup_singleton _) ?_
          intro a ha hb
          rw [List.mem_singleton] at hb
          subst hb
          exact hkc ha
        · exact h3.erase k
        · intro i hi
          rcases List.mem_append.mp hi with hi' | hi'
          · exact h4 i hi'
          · rw [List.mem_singleton] at hi'
            rw [hi']
            exact h5 k hk
        · intro i hi
          exact h5 i (List.mem_of_mem_erase hi)
        · intro i hi hmem
          rcases List.mem_append.mp hi with hi' | hi'
          · exact h6 i hi' (List.mem_of_mem_erase hmem)
          · rw [List.mem_singleton] at hi'
            rw [hi'] at hmem
            exact absurd ((h3.mem_erase_iff).mp hmem).1 (by simp)
        · have hlen := List.length_erase_of_mem hk
          have hpos : 0 < s.pending.length := List.length_pos.mpr (List.ne_nil_of_mem hk)
          simp only [List.length_append, List.length_singleton, hlen]
          omega
        · intro st hst
          exact absurd hst (by simp [hrep])
      · exact absurd h (by simp)
  | report =>
      simp only [schedStep] at h
      split at h
      · injection h with h'
        subst h'
        refine ⟨h1, h2, h3, h4, h5, h6, h7, ?_⟩
        intro st hst
        injection hst with h9
        exact h9.symm
      · exact absurd h (by simp)

/-- Helper: the initial state of `runRequests` satisfies `SchedInv`. -/
theorem schedInv_init (envs : Nat → HttpEnv) : SchedInv envs initState := by
  refine ⟨rfl, List.nodup_nil, List.nodup_nil, ?_, ?_, ?_, rfl, ?_⟩ <;>
    simp [initState]

/-- Helper: `SchedInv` holds along every trace. -/
theorem schedRunFrom_preserves_inv (envs : Nat → HttpEnv) (tr : List SchedEvent) :
    ∀ s s', SchedInv envs s → schedRunFrom envs s tr = some s' → SchedInv envs s' := by
  induction tr with
  | nil =>
      intro s s' hinv h
      simp only [schedRunFrom] at h
      injection h with h'
      subst h'
      exact hinv
  | cons e tr ih =>
      intro s s' hinv h
      cases hstep : schedStep envs s e with
      | none =>
          simp only [schedRunFrom, hstep] at h
          exact Option.noConfusion h
      | some s1 =>
          simp only [schedRunFrom, hstep] at h
          exact ih s1 s' (schedStep_preserves_inv envs s s1 e hinv hstep) h

/-- Claim C3, counterexample: the unsynchronized append does not guarantee
one entry per dispatched-and-completed probe.  Two dispatched probes both
complete — both goroutines finish their `records = append(records, res)` —
yet under the interleaving `raceTraceLost1` the final collection holds a
single record, so a report taken now counts `requestsSent = 1`, not 2.
Moreover, in the cited earlier iteration part_003 the collection does not
start empty: it holds ten (nil) entries before any probe is dispatched. -/
theorem c3_lost_append_breaks_accounting :
    raceRun raceResults 2 raceTraceLost1 =
      some { shared := [raceResults 0]
             phases := [TaskPhase.finished, TaskPhase.finished] } ∧
    (printStatistics [raceResults 0]).nReq = 1 ∧
    responsesPart003Init.length = 10 := by
  exact ⟨rfl, rfl, rfl⟩

/-- Claim C3, amended: along every trace of the scheduler semantics in which
each completing probe's append executes without interleaving with another
append (the `complete` event performs the whole shared-slice append
atomically — a serialization the unsynchronized source append does not itself
guarantee), the outcome collection starts empty (as `make([]Record, 0, 10)`
does in hilicurl.go) and holds exactly one record per dispatched-and-
completed probe: the records are precisely the outcomes of the completed
goroutines in completion order, each a distinct launched probe (none for a
probe that was never dispatched), the record count plus the in-flight count
equals the dispatch count, and the final report's `requestsSent` equals the
number of dispatched-and-completed probes.  When appends do interleave, a
completed probe's record can be lost and `requestsSent` undercounts. -/
theorem c3_one_outcome_per_completed_probe (envs : Nat → HttpEnv)
    (tr : List SchedEvent) (s : SchedState) (h : schedRun envs tr = some s) :
    initState.records = [] ∧
    s.records = s.completedIds.map (fun i => request (envs i)) ∧
    s.completedIds.Nodup ∧
    (∀ i ∈ s.completedIds, i < s.dispatched) ∧
    s.records.length + s.pending.length = s.dispatched ∧
    (∀ st, s.reported = some st → st.nReq = s.records.length) := by
  obtain ⟨h1, h2, h3, h4, h5, h6, h7, h8⟩ :=
    schedRunFrom_preserves_inv envs tr initState s (schedInv_init envs) h
  refine ⟨rfl, h1, h2, h4, ?_, ?_⟩
  · rw [h1, List.length_map]
    exact h7
  · intro st hst
    rw [h8 st hst]
    exact printStatistics_nReq s.records

/-- Claim C3, witness along the concrete trace `trC3` (dispatch, cancel,
complete, report) with every probe behaving like `env200`. -/
theorem c3_one_outcome_per_completed_probe_witness :
    schedRun envs0 trC3 = some sC3 ∧
    (sC3.records = sC3.completedIds.map (fun i => request (envs0 i)) ∧
     sC3.records.length + sC3.pending.length = sC3.dispatched) := by
  have h : schedRun envs0 trC3 = some sC3 := by decide
  have hc := c3_one_outcome_per_completed_probe envs0 trC3 sC3 h
  exact ⟨h, hc.2.1, hc.2.2.2.2.1⟩

/-- Claim C8: the scheduler dispatches exactly one probe per iteration and
only while the context is not done, regardless of how many probes are in
flight (fire-and-forget, non-blocking); once cancellation is observed no
probe is ever dispatched along any continuation of the trace; observing
cancellation produces the report at once from the records accumulated so
far; and a report can be produced while a dispatched probe is still in
flight, whose outcome is then missing from the report — the scheduler does
not wait. -/
theorem c8_scheduler_cancellation_discipline (envs : Nat → HttpEnv) :
    (∀ s : SchedState, s.reported = none → s.cancelled = false →
      schedStep envs s SchedEvent.tick =
        some { s with dispatched := s.dispatched + 1
                      pending := s.dispatched :: s.pending }) ∧
    (∀ tr1 tr2 s1 s2, schedRun envs tr1 = some s1 → s1.cancelled = true →
      schedRun envs (tr1 ++ tr2) = some s2 → s2.dispatched = s1.dispatched) ∧
    (∀ tr s, schedRun envs tr = some s → s.reported = none → s.cancelled = true →
      schedRun envs (tr ++ [SchedEvent.report]) =
        some { s with reported := some (printStatistics s.records) }) ∧
    (∃ tr s, schedRun envs tr = some s ∧ s.pending ≠ [] ∧
      s.reported = some (printStatistics s.records) ∧ s.records.length < s.dispatched) := by
  refine ⟨?_, ?_, ?_, ?_⟩
  · intro s hrep hcanc
    simp [schedStep, hrep, hcanc]
  · intro tr1 tr2 s1 s2 h1 hc h2
    rw [schedRun] at h1 h2
    rw [schedRunFrom_append envs tr1 tr2, h1] at h2
    exact (schedRunFrom_after_cancel envs tr2 s1 s2 hc h2).1
  · intro tr s h hrep hcanc
    rw [schedRun] at h ⊢
    rw [schedRunFrom_append envs tr [SchedEvent.report], h]
    simp [schedRunFrom, schedStep, hrep, hcanc]
  · refine ⟨[SchedEvent.tick, SchedEvent.cancel, SchedEvent.report],
      { records := [], dispatched := 1, pending := [0], completedIds := []
        cancelled := true
        reported := some (printStatistics []) },
      rfl, by decide, rfl, by decide⟩

/-- Claim C8, witness: after the concrete trace `trC8a` (one probe launched,
then cancellation) the report step applies at once, leaving the in-flight
probe unaccounted. -/
theorem c8_scheduler_cancellation_discipline_witness :
    schedRun envs0 trC8a = some sC8a ∧ sC8a.reported = none ∧ sC8a.cancelled = true ∧
    schedRun envs0 (trC8a ++ [SchedEvent.report]) =
      some { sC8a with reported := some (printStatistics sC8a.records) } :=
  ⟨by decide, rfl, rfl,
   (c8_scheduler_cancellation_discipline envs0).2.2.1 trC8a sC8a (by decide) rfl rfl⟩
